import Mathlib

/-!
Verification of the TrufflehogAutomation repository (src/match.py, src/upload.py)
against its natural-language specification.

The Python code is shallowly embedded: pure helpers become Lean functions,
the remote spreadsheet ("Grid Store") mutations become an explicit list of
`GridOp` values in issue order, and `sys.exit` / uncaught Python exceptions
become `Except` error values.
-/

namespace Trufflehog

/-! ## Configuration constants (src/match.py lines 31-41, src/upload.py lines 26-30) -/

def Q4_LINK_HEADER : String := "Github Links"

def Q4_STATUS_COL_N : Nat := 13

def Q2_LINK_HEADER : String := "Link"

def Q2_STATUS_HEADER : String := "Validity status"

/-- `UPLOAD_CHUNK` of src/match.py (rows per range-write call). -/
def MATCH_CHUNK : Nat := 2000

/-- `UPLOAD_CHUNK` of src/upload.py (rows per append call). -/
def INGEST_CHUNK : Nat := 1000

/-! ## Column Addressing (src/match.py `col_letter`, lines 96-102)

The Python loop `while idx: idx, rem = divmod(idx - 1, 26); res = chr(65+rem) + res`
is embedded with an explicit fuel argument (`fuel = n` always suffices because
`(n-1)/26 < n` for `n ≥ 1`), so that the function stays structurally recursive
and kernel-evaluable. -/

def colAux : Nat → Nat → String
  | _, 0 => ""
  | 0, _ + 1 => ""
  | fuel + 1, n + 1 => colAux fuel (n / 26) ++ String.mk [Char.ofNat (65 + n % 26)]

/-- Embeds `col_letter` of src/match.py: 1-based column index to letter label. -/
def col_letter (n : Nat) : String := colAux n n

theorem colAux_congr : ∀ (n f₁ f₂ : Nat), n ≤ f₁ → n ≤ f₂ → colAux f₁ n = colAux f₂ n := by
  intro n
  induction n using Nat.strongRecOn with
  | ind n ih =>
    match n with
    | 0 => intro f₁ f₂ _ _; cases f₁ <;> cases f₂ <;> rfl
    | m + 1 =>
      intro f₁ f₂ h₁ h₂
      match f₁, h₁ with
      | g₁ + 1, _ =>
        match f₂, h₂ with
        | g₂ + 1, _ =>
          simp only [colAux]
          rw [ih (m / 26) (Nat.lt_succ_of_le (Nat.div_le_self m 26)) g₁ (m / 26)
                (le_trans (Nat.div_le_self m 26) (by omega)) le_rfl,
              ih (m / 26) (Nat.lt_succ_of_le (Nat.div_le_self m 26)) g₂ (m / 26)
                (le_trans (Nat.div_le_self m 26) (by omega)) le_rfl]

/-- Unfolding equation for `col_letter` at a positive index. -/
theorem col_letter_succ (m : Nat) :
    col_letter (m + 1) = col_letter (m / 26) ++ String.mk [Char.ofNat (65 + m % 26)] := by
  show colAux (m + 1) (m + 1) = colAux (m / 26) (m / 26) ++ _
  simp only [colAux]
  rw [colAux_congr (m / 26) m (m / 26) (Nat.div_le_self m 26) le_rfl]

/-- Decode a letter label back to its 1-based index (verification-side inverse). -/
def decodeCols (s : String) : Nat :=
  s.data.foldl (fun acc c => acc * 26 + (c.toNat - 65) + 1) 0

theorem char_code_toNat : ∀ r : Fin 26, (Char.ofNat (65 + (r : Nat))).toNat = 65 + (r : Nat) := by
  decide

theorem char_code_bounds :
    ∀ r : Fin 26, 65 ≤ (Char.ofNat (65 + (r : Nat))).toNat ∧ (Char.ofNat (65 + (r : Nat))).toNat ≤ 90 := by
  decide

theorem decodeList_append_one (l : List Char) (c : Char) :
    (l ++ [c]).foldl (fun acc x => acc * 26 + (x.toNat - 65) + 1) 0 =
      (l.foldl (fun acc x => acc * 26 + (x.toNat - 65) + 1) 0) * 26 + (c.toNat - 65) + 1 := by
  rw [List.foldl_append]
  rfl

theorem data_append (s t : String) : (s ++ t).data = s.data ++ t.data := rfl

/-- `decodeCols` is a left inverse of `col_letter` on all of `Nat`. -/
theorem decode_col_letter : ∀ n : Nat, decodeCols (col_letter n) = n := by
  intro n
  induction n using Nat.strongRecOn with
  | ind n ih =>
    match n with
    | 0 => rfl
    | m + 1 =>
      rw [col_letter_succ]
      unfold decodeCols
      rw [data_append]
      have hc : (Char.ofNat (65 + m % 26)).toNat = 65 + m % 26 :=
        char_code_toNat ⟨m % 26, Nat.mod_lt m (by norm_num)⟩
      rw [show (String.mk [Char.ofNat (65 + m % 26)]).data = [Char.ofNat (65 + m % 26)] from rfl]
      rw [decodeList_append_one]
      have ihm : decodeCols (col_letter (m / 26)) = m / 26 :=
        ih (m / 26) (Nat.lt_succ_of_le (Nat.div_le_self m 26))
      unfold decodeCols at ihm
      rw [ihm, hc]
      have hdm := Nat.div_add_mod m 26
      omega

/-! ## Grid Store mutations

Remote spreadsheet mutations issued by the scripts, in issue order.
`addCols` is `ws.add_cols`, `updateCell` is `ws.update_cell`, `updateRange` is
`ws.update(values, range)`, `appendRow`/`appendRows` are `ws.append_row` /
`ws.append_rows`, `clear` is `ws.clear()`. -/

inductive GridOp where
  | addCols (n : Nat)
  | updateCell (row col : Nat) (value : String)
  | updateRange (rng : String) (values : List (List String))
  | appendRow (values : List String)
  | appendRows (values : List (List String))
  | clear
deriving DecidableEq

/-! ## Chunked batch writing

`pychunks c l` embeds the Python idiom `for i in range(0, len(l), c): l[i:i+c]`
(src/upload.py lines 110-116, src/match.py line 141-142).  `chunkCalls` embeds
the range-write loop of src/match.py lines 141-148, recording for each chunk
the first data row `i + 2`, the last data row `start + len(chunk) - 1`, and the
chunk's values. -/

def pychunks {α : Type} (c : Nat) : List α → List (List α)
  | [] => []
  | x :: xs =>
    if c = 0 then []
    else (x :: xs).take c :: pychunks c ((x :: xs).drop c)
termination_by l => l.length
decreasing_by
  simp only [List.length_drop, List.length_cons]
  omega

def chunkCalls {α : Type} (c : Nat) : List α → Nat → List (Nat × Nat × List α)
  | [], _ => []
  | x :: xs, i =>
    if c = 0 then []
    else (i + 2, i + 2 + ((x :: xs).take c).length - 1, (x :: xs).take c) ::
      chunkCalls c ((x :: xs).drop c) (i + c)
termination_by l _ => l.length
decreasing_by
  simp only [List.length_drop, List.length_cons]
  omega

theorem pychunks_nil {α : Type} (c : Nat) : pychunks c ([] : List α) = [] := by
  rw [pychunks]

theorem pychunks_cons {α : Type} (c : Nat) (l : List α) (h : l ≠ []) (hc : c ≠ 0) :
    pychunks c l = l.take c :: pychunks c (l.drop c) := by
  match l with
  | x :: xs => rw [pychunks]; simp [hc]

theorem chunkCalls_nil {α : Type} (c i : Nat) : chunkCalls c ([] : List α) i = [] := by
  rw [chunkCalls]

theorem chunkCalls_cons {α : Type} (c i : Nat) (l : List α) (h : l ≠ []) (hc : c ≠ 0) :
    chunkCalls c l i =
      (i + 2, i + 2 + (l.take c).length - 1, l.take c) :: chunkCalls c (l.drop c) (i + c) := by
  match l with
  | x :: xs => rw [chunkCalls]; simp [hc]

/-- The values carried by the range-write calls are exactly the chunks. -/
theorem chunkCalls_map_values {α : Type} (c : Nat) :
    ∀ (n : Nat) (vs : List α) (i : Nat), vs.length ≤ n →
      (chunkCalls c vs i).map (fun t => t.2.2) = pychunks c vs := by
  intro n
  induction n with
  | zero =>
    intro vs i h
    have : vs = [] := List.length_eq_zero.mp (Nat.le_zero.mp h)
    subst this
    rw [chunkCalls_nil, pychunks_nil]
    rfl
  | succ n ih =>
    intro vs i h
    match vs with
    | [] => rw [chunkCalls_nil, pychunks_nil]; rfl
    | x :: xs =>
      by_cases hc : c = 0
      · subst hc; rw [chunkCalls, pychunks]; rfl
      · rw [chunkCalls_cons c i _ (by simp) hc, pychunks_cons c _ (by simp) hc]
        simp only [List.map_cons]
        rw [ih ((x :: xs).drop c) (i + c) (by simp only [List.length_drop, List.length_cons] at h ⊢; omega)]

/-- Concatenating the chunks in order recovers the original sequence. -/
theorem pychunks_join {α : Type} (c : Nat) (hc : 0 < c) :
    ∀ (n : Nat) (vs : List α), vs.length ≤ n → (pychunks c vs).flatten = vs := by
  intro n
  induction n with
  | zero =>
    intro vs h
    have : vs = [] := List.length_eq_zero.mp (Nat.le_zero.mp h)
    subst this
    rw [pychunks_nil]
    rfl
  | succ n ih =>
    intro vs h
    match vs with
    | [] => rw [pychunks_nil]; rfl
    | x :: xs =>
      rw [pychunks_cons c _ (by simp) (Nat.pos_iff_ne_zero.mp hc)]
      rw [List.flatten_cons]
      rw [ih ((x :: xs).drop c) (by simp only [List.length_drop, List.length_cons] at h ⊢; omega)]
      exact List.take_append_drop c (x :: xs)

/-- The number of chunks is the ceiling of the length divided by the chunk size. -/
theorem pychunks_length {α : Type} (c : Nat) (hc : 0 < c) :
    ∀ (n : Nat) (vs : List α), vs.length ≤ n →
      (pychunks c vs).length = (vs.length + c - 1) / c := by
  intro n
  induction n with
  | zero =>
    intro vs h
    have : vs = [] := List.length_eq_zero.mp (Nat.le_zero.mp h)
    subst this
    rw [pychunks_nil]
    simp [Nat.div_eq_of_lt (show c - 1 < c by omega)]
  | succ n ih =>
    intro vs h
    match vs with
    | [] =>
      rw [pychunks_nil]
      simp [Nat.div_eq_of_lt (show c - 1 < c by omega)]
    | x :: xs =>
      rw [pychunks_cons c _ (by simp) (Nat.pos_iff_ne_zero.mp hc)]
      rw [List.length_cons]
      rw [ih ((x :: xs).drop c) (by simp only [List.length_drop, List.length_cons] at h ⊢; omega)]
      simp only [List.length_drop, List.length_cons]
      set L := xs.length + 1 with hL
      have h1 : L + c - 1 = (L - 1) + c := by omega
      rw [h1, Nat.add_div_right _ hc]
      by_cases hlc : L ≤ c
      · have h2 : L - c + c - 1 = c - 1 := by omega
        rw [h2, Nat.div_eq_of_lt (show c - 1 < c by omega),
          Nat.div_eq_of_lt (show L - 1 < c by omega)]
      · have h2 : L - c + c - 1 = (L - 1 - c) + c := by omega
        have h3 : L - 1 = (L - 1 - c) + c := by omega
        rw [h2, Nat.add_div_right _ hc]
        conv_rhs => rw [h3, Nat.add_div_right _ hc]

/-- Shape of the j-th range-write call: it starts at data row `i + j·c + 2`,
ends at `start + len(chunk) − 1`, and carries exactly the j-th chunk. -/
theorem chunkCalls_get {α : Type} (c : Nat) :
    ∀ (n : Nat) (vs : List α) (i j : Nat) (hj : j < (chunkCalls c vs i).length),
      vs.length ≤ n →
      (chunkCalls c vs i).get ⟨j, hj⟩ =
        (i + j * c + 2, i + j * c + 2 + ((vs.drop (j * c)).take c).length - 1,
          (vs.drop (j * c)).take c) := by
  intro n
  induction n with
  | zero =>
    intro vs i j hj h
    have : vs = [] := List.length_eq_zero.mp (Nat.le_zero.mp h)
    subst this
    rw [chunkCalls_nil] at hj
    exact absurd hj (by simp)
  | succ n ih =>
    intro vs i j hj h
    match vs with
    | [] =>
      rw [chunkCalls_nil] at hj
      exact absurd hj (by simp)
    | x :: xs =>
      by_cases hc : c = 0
      · subst hc
        rw [chunkCalls] at hj
        exact absurd hj (by simp)
      · have hcons := chunkCalls_cons c i (x :: xs) (by simp) hc
        match j with
        | 0 =>
          simp only [List.get_eq_getElem]
          rw [List.getElem_of_eq hcons]
          simp
        | j + 1 =>
          simp only [List.get_eq_getElem]
          rw [List.getElem_of_eq hcons]
          rw [List.getElem_cons_succ]
          have hj' : j < (chunkCalls c ((x :: xs).drop c) (i + c)).length := by
            have := hj
            rw [hcons] at this
            simpa using this
          have := ih ((x :: xs).drop c) (i + c) j hj'
            (by simp only [List.length_drop, List.length_cons] at h ⊢; omega)
          simp only [List.get_eq_getElem] at this
          rw [this]
          rw [List.drop_drop]
          have harith : i + c + j * c + 2 = i + (j + 1) * c + 2 := by ring
          have hd : c + j * c = (j + 1) * c := by ring
          rw [harith, hd]

set_option maxRecDepth 10000

/-- C1: the range-write loop of src/match.py partitions the value sequence into
contiguous chunks of at most `c` values; the chunk starting at 0-based offset
`o = j·c` is written to rows `o + 2` through `o + 2 + len(chunk) − 1`, chunks are
issued in ascending offset order carrying exactly their own values; for 5000
values and chunk size 2000 exactly the row ranges [2,2001], [2002,4001],
[4002,5001] are issued in that order, and concatenating the chunks in call
order recovers the original sequence. -/
theorem C1_chunked_range_write {α : Type} (c : Nat) (hc : 0 < c) (vs : List α) :
    ((chunkCalls c vs 0).map (fun t => t.2.2)).flatten = vs ∧
    (∀ j (hj : j < (chunkCalls c vs 0).length),
      (chunkCalls c vs 0).get ⟨j, hj⟩ =
        (j * c + 2, j * c + 2 + ((vs.drop (j * c)).take c).length - 1,
          (vs.drop (j * c)).take c)) ∧
    (c = 2000 → vs.length = 5000 →
      (chunkCalls c vs 0).map (fun t => (t.1, t.2.1)) =
        [(2, 2001), (2002, 4001), (4002, 5001)]) := by
  have hmap := chunkCalls_map_values c vs.length vs 0 le_rfl
  refine ⟨?_, ?_, ?_⟩
  · rw [hmap]
    exact pychunks_join c hc vs.length vs le_rfl
  · intro j hj
    have := chunkCalls_get c vs.length vs 0 j hj le_rfl
    simpa using this
  · rintro rfl hlen
    have hlencalls : (chunkCalls 2000 vs 0).length = 3 := by
      have h1 : ((chunkCalls 2000 vs 0).map (fun t => t.2.2)).length =
          (pychunks 2000 vs).length := by rw [hmap]
      rw [List.length_map] at h1
      rw [h1, pychunks_length 2000 (by norm_num) vs.length vs le_rfl, hlen]
    apply List.ext_getElem
    · simp [hlencalls]
    · intro j h1 h2
      have hj : j < (chunkCalls 2000 vs 0).length := by
        rw [List.length_map] at h1
        exact h1
      have hget := chunkCalls_get 2000 vs.length vs 0 j hj le_rfl
      rw [List.get_eq_getElem] at hget
      rw [List.getElem_map, hget]
      have h3 : j < 3 := by rwa [List.length_map, hlencalls] at h1
      interval_cases j <;>
        · simp only [List.length_take, List.length_drop, hlen]
          norm_num

/-- Witness for C1: the concrete 5000-value, chunk-size-2000 instance. -/
theorem C1_witness :
    0 < 2000 ∧
    (chunkCalls 2000 (List.replicate 5000 (0 : Nat)) 0).map (fun t => (t.1, t.2.1)) =
      [(2, 2001), (2002, 4001), (4002, 5001)] :=
  ⟨Nat.succ_pos 1999,
    (C1_chunked_range_write 2000 (Nat.succ_pos 1999) (List.replicate 5000 (0 : Nat))).2.2 rfl
      (List.length_replicate 5000 0)⟩

/-! ## Ingestion upload (src/upload.py `upload_dataframe`, lines 101-120) -/

/-- The fixed field-name sequence of the flattened findings DataFrame: the keys
of the dict built by `parse_line` (src/upload.py lines 50-62), in insertion
order, which become `df.columns`. -/
def FIELDS : List String :=
  ["link", "repository", "commit", "file", "line", "timestamp", "email",
    "detector_name", "detector_type", "raw_secret", "verified"]

/-- Embeds `upload_dataframe`: clear the worksheet, append the header row, then
append the data rows in chunks of `UPLOAD_CHUNK = 1000`. -/
def upload_dataframe (cols : List String) (rows : List (List String)) : List GridOp :=
  GridOp.clear :: GridOp.appendRow cols ::
    (pychunks INGEST_CHUNK rows).map GridOp.appendRows

/-- C9: the upload first clears the worksheet, then issues exactly one header
append carrying the fixed field-name sequence, then ceil(n / 1000) row-append
calls in ascending row order whose concatenation equals the full record set. -/
theorem C9_upload_clears_then_appends (rows : List (List String)) (hne : rows ≠ []) :
    (upload_dataframe FIELDS rows).head? = some GridOp.clear ∧
    (upload_dataframe FIELDS rows).get? 1 = some (GridOp.appendRow FIELDS) ∧
    (upload_dataframe FIELDS rows).drop 2 =
      (pychunks INGEST_CHUNK rows).map GridOp.appendRows ∧
    (pychunks INGEST_CHUNK rows).length =
      (rows.length + INGEST_CHUNK - 1) / INGEST_CHUNK ∧
    (pychunks INGEST_CHUNK rows).flatten = rows := by
  have hpos : 0 < INGEST_CHUNK := Nat.succ_pos 999
  refine ⟨rfl, rfl, rfl, ?_, ?_⟩
  · exact pychunks_length INGEST_CHUNK hpos rows.length rows le_rfl
  · exact pychunks_join INGEST_CHUNK hpos rows.length rows le_rfl

/-- Witness for C9: the upload of a one-row record set. -/
theorem C9_witness :
    ([["x"]] : List (List String)) ≠ [] ∧
    (pychunks INGEST_CHUNK [["x"]]).flatten = [["x"]] :=
  ⟨by simp, (C9_upload_clears_then_appends [["x"]] (by simp)).2.2.2.2⟩

/-! ## Python str.strip() -/

/-- The whitespace characters stripped by Python `str.strip()`. -/
def pySpace (c : Char) : Bool :=
  c = ' ' || c = '\t' || c = '\n' || c = '\r' || c = '\x0b' || c = '\x0c'

/-- Embeds Python `str.strip()`: drop leading and trailing whitespace. -/
def pytrim (s : String) : String :=
  String.mk (((s.data.dropWhile pySpace).reverse.dropWhile pySpace).reverse)

/-! ## Mapping Builder (src/match.py `build_q4_mapping`, lines 62-79)

A Python dict is embedded as a function `String → Option String`; inserting a
key overwrites, which the function update captures exactly. -/

/-- Embeds Python `list.index(name)` / pandas `columns.get_loc(name)`: index of
the first occurrence, `none` when absent. -/
def pyIndex (l : List String) (a : String) : Option Nat :=
  match l with
  | [] => none
  | x :: xs => if x = a then some 0 else (pyIndex xs a).map (· + 1)

/-- Embeds one iteration of the row loop of `build_q4_mapping` (lines 72-78):
skip rows with too few physical cells, trim link and status, skip empty trimmed
links, otherwise insert (overwriting). Inside the guard the Python indexings
`r[link_idx]` and `r[13]` are in bounds, so `getD` is exact. -/
def q4step (linkIdx : Nat) (m : String → Option String) (r : List String) :
    String → Option String :=
  if r.length ≤ max linkIdx Q4_STATUS_COL_N then m
  else if pytrim (r.getD linkIdx "") = "" then m
  else fun k =>
    if k = pytrim (r.getD linkIdx "") then some (pytrim (r.getD Q4_STATUS_COL_N "")) else m k

/-- The full row loop, starting from the empty dict. -/
def q4loop (linkIdx : Nat) (dataRows : List (List String)) : String → Option String :=
  dataRows.foldl (q4step linkIdx) (fun _ => none)

/-- Embeds `build_q4_mapping`: header row, `header.index` with `sys.exit` on a
missing key column (lines 66-69), then the row loop. An empty cell grid makes
`rows[0]` raise IndexError, modelled as an error value as well. -/
def build_q4_mapping (rows : List (List String)) : Except String (String → Option String) :=
  match rows with
  | [] => Except.error "IndexError: list index out of range"
  | header :: dataRows =>
    match pyIndex header Q4_LINK_HEADER with
    | none => Except.error "[ERROR] Column Github Links not found in Q4 sheet."
    | some linkIdx => Except.ok (q4loop linkIdx dataRows)

/-- Modelled from the spec (4.4): which (trimmed key, trimmed status) pair a
single row contributes — nothing for short rows or empty trimmed keys. -/
def specRowEntry (linkIdx : Nat) (r : List String) : Option (String × String) :=
  if r.length ≤ max linkIdx Q4_STATUS_COL_N then none
  else if pytrim (r.getD linkIdx "") = "" then none
  else some (pytrim (r.getD linkIdx ""), pytrim (r.getD Q4_STATUS_COL_N ""))

/-- The value a single row contributes for one key. -/
def specEntryAt (linkIdx : Nat) (r : List String) (k : String) : Option String :=
  match specRowEntry linkIdx r with
  | some p => if p.1 = k then some p.2 else none
  | none => none

/-- Modelled from the spec (4.4): the mapping's value at `k` is the status of
the last contributing row whose trimmed key is `k` (later rows take
precedence). -/
def specMapping (linkIdx : Nat) (rows : List (List String)) (k : String) : Option String :=
  match rows with
  | [] => none
  | r :: rs =>
    match specMapping linkIdx rs k with
    | some v => some v
    | none => specEntryAt linkIdx r k

/-- Left-biased choice on optional values. -/
def oalt (x y : Option String) : Option String :=
  match x with
  | some v => some v
  | none => y

theorem oalt_assoc (x y z : Option String) : oalt x (oalt y z) = oalt (oalt x y) z := by
  cases x <;> rfl

theorem oalt_none (x : Option String) : oalt x none = x := by
  cases x <;> rfl

theorem q4step_apply (linkIdx : Nat) (m : String → Option String) (r : List String) (k : String) :
    q4step linkIdx m r k = oalt (specEntryAt linkIdx r k) (m k) := by
  by_cases h1 : r.length ≤ max linkIdx Q4_STATUS_COL_N
  · simp only [q4step, specEntryAt, specRowEntry, oalt, if_pos h1]
  · by_cases h2 : pytrim (r.getD linkIdx "") = ""
    · simp only [q4step, specEntryAt, specRowEntry, oalt, if_neg h1, if_pos h2]
    · by_cases h3 : k = pytrim (r.getD linkIdx "")
      · simp only [q4step, specEntryAt, specRowEntry, oalt, if_neg h1, if_neg h2,
          if_pos h3, if_pos h3.symm]
      · simp only [q4step, specEntryAt, specRowEntry, oalt, if_neg h1, if_neg h2,
          if_neg h3, if_neg (fun h : pytrim (r.getD linkIdx "") = k => h3 h.symm)]

theorem specMapping_cons (linkIdx : Nat) (r : List String) (rs : List (List String)) (k : String) :
    specMapping linkIdx (r :: rs) k =
      oalt (specMapping linkIdx rs k) (specEntryAt linkIdx r k) := by
  show (match specMapping linkIdx rs k with
    | some v => some v
    | none => specEntryAt linkIdx r k) = _
  cases specMapping linkIdx rs k <;> rfl

theorem q4loop_aux (linkIdx : Nat) :
    ∀ (rows : List (List String)) (m : String → Option String) (k : String),
      (rows.foldl (q4step linkIdx) m) k = oalt (specMapping linkIdx rows k) (m k) := by
  intro rows
  induction rows with
  | nil => intro m k; rfl
  | cons r rs ih =>
    intro m k
    rw [List.foldl_cons, ih (q4step linkIdx m r) k, q4step_apply, oalt_assoc,
      specMapping_cons]

/-- C3: rows whose physical cell count is at most the key index or the fixed
status index are skipped without error; the key and status cells are trimmed,
rows with an empty trimmed key are skipped, and the resulting dict maps each
trimmed key to the trimmed status of its last contributing occurrence
(duplicates: last wins), as captured by the spec-side `specMapping`. -/
theorem C3_mapping_builder (linkIdx : Nat) :
    (∀ (m : String → Option String) (r : List String),
      r.length ≤ max linkIdx Q4_STATUS_COL_N → q4step linkIdx m r = m) ∧
    (∀ (m : String → Option String) (r : List String),
      pytrim (r.getD linkIdx "") = "" → q4step linkIdx m r = m) ∧
    (∀ (rows : List (List String)) (k : String),
      q4loop linkIdx rows k = specMapping linkIdx rows k) := by
  refine ⟨?_, ?_, ?_⟩
  · intro m r h
    simp only [q4step, if_pos h]
  · intro m r h
    by_cases h1 : r.length ≤ max linkIdx Q4_STATUS_COL_N
    · simp only [q4step, if_pos h1]
    · simp only [q4step, if_neg h1, if_pos h]
  · intro rows k
    rw [q4loop, q4loop_aux, oalt_none]

/-- Witness for C3: a one-cell row is skipped, and the loop agrees with the
spec-side mapping on a concrete duplicate-key table. -/
theorem C3_witness :
    ((["x"] : List String).length ≤ max 0 Q4_STATUS_COL_N ∧
      q4step 0 (fun _ => none) ["x"] = (fun _ => none)) ∧
    q4loop 0 [List.replicate 14 "a", List.replicate 14 "b"] "a" =
      specMapping 0 [List.replicate 14 "a", List.replicate 14 "b"] "a" :=
  ⟨⟨by decide, (C3_mapping_builder 0).1 (fun _ => none) ["x"] (by decide)⟩,
    (C3_mapping_builder 0).2.2 [List.replicate 14 "a", List.replicate 14 "b"] "a"⟩

/-! ## Merge Engine (src/match.py `main`, lines 128-134)

A pandas row is embedded as its list of cell strings together with the shared
header `cols`; `row.get(name, "")` and `df.at[idx, name] = v` become
`dfGet` / `dfSet` through the header index. -/

theorem getD_set_self {α : Type} :
    ∀ (l : List α) (i : Nat) (a d : α), i < l.length → (l.set i a).getD i d = a := by
  intro l
  induction l with
  | nil => intro i a d h; simp at h
  | cons x xs ih =>
    intro i a d h
    match i with
    | 0 => rfl
    | i + 1 =>
      simp only [List.set_cons_succ, List.getD_cons_succ]
      exact ih i a d (by simpa using h)

theorem getD_set_ne {α : Type} :
    ∀ (l : List α) (i j : Nat) (a d : α), i ≠ j → (l.set i a).getD j d = l.getD j d := by
  intro l
  induction l with
  | nil => intro i j a d h; rfl
  | cons x xs ih =>
    intro i j a d h
    match i, j with
    | 0, 0 => exact absurd rfl h
    | 0, j + 1 => rfl
    | i + 1, 0 => rfl
    | i + 1, j + 1 =>
      simp only [List.set_cons_succ, List.getD_cons_succ]
      exact ih i j a d (fun he => h (by rw [he]))

theorem pyIndex_getD :
    ∀ (l : List String) (a : String) (i : Nat),
      pyIndex l a = some i → i < l.length ∧ l.getD i "" = a := by
  intro l
  induction l with
  | nil => intro a i h; exact absurd h (by simp [pyIndex])
  | cons x xs ih =>
    intro a i h
    rw [pyIndex] at h
    by_cases hx : x = a
    · rw [if_pos hx] at h
      cases h
      exact ⟨by simp, hx⟩
    · rw [if_neg hx] at h
      match hp : pyIndex xs a with
      | none => rw [hp] at h; cases h
      | some i' =>
        rw [hp] at h
        cases h
        have := ih a i' hp
        exact ⟨by simpa using this.1, this.2⟩

/-- Embeds `row.get(name, default="")`: look the column name up in the header,
read that cell, empty string when absent. -/
def dfGet (cols r : List String) (name : String) : String :=
  match pyIndex cols name with
  | some i => r.getD i ""
  | none => ""

/-- Embeds `df.at[idx, name] = v` for an existing column: overwrite the cell at
the column's header index. -/
def dfSet (cols r : List String) (name v : String) : List String :=
  match pyIndex cols name with
  | some i => r.set i v
  | none => r

/-- The effect of one iteration of the merge loop (lines 129-133) on one row. -/
def mergeRow (m : String → Option String) (cols r : List String) : List String :=
  match m (pytrim (dfGet cols r Q2_LINK_HEADER)) with
  | some v => dfSet cols r Q2_STATUS_HEADER v
  | none => r

/-- One iteration of the merge loop: mutate the row in place (here: extend the
accumulated table) and bump the match counter on a hit. -/
def mergeStep (m : String → Option String) (cols : List String)
    (acc : List (List String) × Nat) (r : List String) : List (List String) × Nat :=
  match m (pytrim (dfGet cols r Q2_LINK_HEADER)) with
  | some v => (acc.1 ++ [dfSet cols r Q2_STATUS_HEADER v], acc.2 + 1)
  | none => (acc.1 ++ [r], acc.2)

/-- Embeds the merge loop of src/match.py lines 128-134: the mutated table and
the `matches` counter. -/
def mergeTable (m : String → Option String) (cols : List String)
    (rows : List (List String)) : List (List String) × Nat :=
  rows.foldl (mergeStep m cols) ([], 0)

/-- The Boolean hit predicate of the merge loop. -/
def mergeHit (m : String → Option String) (cols r : List String) : Bool :=
  (m (pytrim (dfGet cols r Q2_LINK_HEADER))).isSome

theorem mergeTable_foldl (m : String → Option String) (cols : List String) :
    ∀ (rows : List (List String)) (acc : List (List String)) (k : Nat),
      rows.foldl (mergeStep m cols) (acc, k) =
        (acc ++ rows.map (mergeRow m cols), k + rows.countP (mergeHit m cols)) := by
  intro rows
  induction rows with
  | nil => intro acc k; simp
  | cons r rs ih =>
    intro acc k
    rw [List.foldl_cons]
    match h : m (pytrim (dfGet cols r Q2_LINK_HEADER)) with
    | some v =>
      have hstep : mergeStep m cols (acc, k) r =
          (acc ++ [dfSet cols r Q2_STATUS_HEADER v], k + 1) := by
        unfold mergeStep
        rw [h]
      have hrow : mergeRow m cols r = dfSet cols r Q2_STATUS_HEADER v := by
        unfold mergeRow
        rw [h]
      have hhit : mergeHit m cols r = true := by
        unfold mergeHit
        rw [h]
        rfl
      rw [hstep, ih]
      rw [List.map_cons, hrow, List.countP_cons, hhit]
      simp [Nat.add_comm, Nat.add_assoc, Nat.add_left_comm]
    | none =>
      have hstep : mergeStep m cols (acc, k) r = (acc ++ [r], k) := by
        unfold mergeStep
        rw [h]
      have hrow : mergeRow m cols r = r := by
        unfold mergeRow
        rw [h]
      have hhit : mergeHit m cols r = false := by
        unfold mergeHit
        rw [h]
        rfl
      rw [hstep, ih]
      rw [List.map_cons, hrow, List.countP_cons, hhit]
      simp

theorem mergeTable_eq (m : String → Option String) (cols : List String)
    (rows : List (List String)) :
    mergeTable m cols rows =
      (rows.map (mergeRow m cols), rows.countP (mergeHit m cols)) := by
  unfold mergeTable
  rw [mergeTable_foldl]
  simp

theorem link_ne_status (cols : List String) (li si : Nat)
    (hl : pyIndex cols Q2_LINK_HEADER = some li)
    (hs : pyIndex cols Q2_STATUS_HEADER = some si) : si ≠ li := by
  intro h
  have h1 := (pyIndex_getD cols _ li hl).2
  have h2 := (pyIndex_getD cols _ si hs).2
  rw [h, h1] at h2
  exact absurd h2 (by decide)

theorem dfGet_dfSet_self (cols r : List String) (si : Nat)
    (hs : pyIndex cols Q2_STATUS_HEADER = some si) (hlen : r.length = cols.length)
    (v : String) :
    dfGet cols (dfSet cols r Q2_STATUS_HEADER v) Q2_STATUS_HEADER = v := by
  unfold dfGet dfSet
  rw [hs]
  exact getD_set_self r si v "" (by rw [hlen]; exact (pyIndex_getD cols _ si hs).1)

theorem dfGet_dfSet_link (cols r : List String) (li si : Nat)
    (hl : pyIndex cols Q2_LINK_HEADER = some li)
    (hs : pyIndex cols Q2_STATUS_HEADER = some si) (v : String) :
    dfGet cols (dfSet cols r Q2_STATUS_HEADER v) Q2_LINK_HEADER =
      dfGet cols r Q2_LINK_HEADER := by
  unfold dfGet dfSet
  rw [hs, hl]
  exact getD_set_ne r si li v "" (link_ne_status cols li si hl hs)

theorem mergeRow_key (m : String → Option String) (cols r : List String) (li si : Nat)
    (hl : pyIndex cols Q2_LINK_HEADER = some li)
    (hs : pyIndex cols Q2_STATUS_HEADER = some si) :
    dfGet cols (mergeRow m cols r) Q2_LINK_HEADER = dfGet cols r Q2_LINK_HEADER := by
  unfold mergeRow
  match h : m (pytrim (dfGet cols r Q2_LINK_HEADER)) with
  | none => rfl
  | some v => exact dfGet_dfSet_link cols r li si hl hs v

theorem mergeRow_idem (m : String → Option String) (cols : List String) (li si : Nat)
    (hl : pyIndex cols Q2_LINK_HEADER = some li)
    (hs : pyIndex cols Q2_STATUS_HEADER = some si) (r : List String) :
    mergeRow m cols (mergeRow m cols r) = mergeRow m cols r := by
  match h : m (pytrim (dfGet cols r Q2_LINK_HEADER)) with
  | none =>
    have h0 : mergeRow m cols r = r := by
      unfold mergeRow
      rw [h]
    rw [h0, h0]
  | some v =>
    have h1 : mergeRow m cols r = dfSet cols r Q2_STATUS_HEADER v := by
      unfold mergeRow
      rw [h]
    rw [h1]
    show mergeRow m cols (dfSet cols r Q2_STATUS_HEADER v) = dfSet cols r Q2_STATUS_HEADER v
    unfold mergeRow
    rw [dfGet_dfSet_link cols r li si hl hs v, h]
    unfold dfSet
    rw [hs]
    exact List.set_set v v r si

theorem mergeHit_mergeRow (m : String → Option String) (cols : List String) (li si : Nat)
    (hl : pyIndex cols Q2_LINK_HEADER = some li)
    (hs : pyIndex cols Q2_STATUS_HEADER = some si) (r : List String) :
    mergeHit m cols (mergeRow m cols r) = mergeHit m cols r := by
  unfold mergeHit
  rw [mergeRow_key m cols r li si hl hs]

/-- C2: after the merge, a destination row's target-column value is the
mapping's value for the row's trimmed key when present and unchanged otherwise;
the match counter counts exactly the rows whose trimmed key is in the mapping;
and re-running the merge with the same mapping on the merged table changes
nothing. -/
theorem C2_merge_engine (m : String → Option String) (cols : List String)
    (rows : List (List String)) (li si : Nat)
    (hl : pyIndex cols Q2_LINK_HEADER = some li)
    (hs : pyIndex cols Q2_STATUS_HEADER = some si)
    (hrect : ∀ r ∈ rows, r.length = cols.length) :
    (mergeTable m cols rows).1.length = rows.length ∧
    (∀ (j : Nat) (x y : List String), rows.get? j = some x →
      (mergeTable m cols rows).1.get? j = some y →
      dfGet cols y Q2_STATUS_HEADER =
        (m (pytrim (dfGet cols x Q2_LINK_HEADER))).getD (dfGet cols x Q2_STATUS_HEADER)) ∧
    (mergeTable m cols rows).2 = rows.countP (mergeHit m cols) ∧
    mergeTable m cols (mergeTable m cols rows).1 = mergeTable m cols rows := by
  rw [mergeTable_eq]
  refine ⟨by simp, ?_, rfl, ?_⟩
  · intro j x y hx hy
    simp only [List.get?_map, hx, Option.map_some] at hy
    cases hy
    have hxmem : x ∈ rows := List.get?_mem hx
    match h : m (pytrim (dfGet cols x Q2_LINK_HEADER)) with
    | none =>
      have h0 : mergeRow m cols x = x := by
        unfold mergeRow
        rw [h]
      rw [h0]
      rfl
    | some v =>
      have h1 : mergeRow m cols x = dfSet cols x Q2_STATUS_HEADER v := by
        unfold mergeRow
        rw [h]
      rw [h1, dfGet_dfSet_self cols x si hs (hrect x hxmem) v]
      rfl
  · rw [mergeTable_eq, List.map_map, List.countP_map]
    have hrowfun : mergeRow m cols ∘ mergeRow m cols = mergeRow m cols :=
      funext (mergeRow_idem m cols li si hl hs)
    have hhitfun : mergeHit m cols ∘ mergeRow m cols = mergeHit m cols :=
      funext (mergeHit_mergeRow m cols li si hl hs)
    rw [hrowfun, hhitfun]

/-- Witness for C2: a concrete two-column table with one matching row. -/
theorem C2_witness :
    pyIndex ["Link", "Validity status"] Q2_LINK_HEADER = some 0 ∧
    pyIndex ["Link", "Validity status"] Q2_STATUS_HEADER = some 1 ∧
    (mergeTable (fun k => if k = "a" then some "valid" else none)
        ["Link", "Validity status"] [["a", ""], ["c", "z"]]).2 =
      ([["a", ""], ["c", "z"]] : List (List String)).countP
        (mergeHit (fun k => if k = "a" then some "valid" else none)
          ["Link", "Validity status"]) :=
  ⟨rfl, rfl,
    (C2_merge_engine (fun k => if k = "a" then some "valid" else none)
      ["Link", "Validity status"] [["a", ""], ["c", "z"]] 0 1 rfl rfl
      (by decide)).2.2.1⟩

/-! ## Schema Reconciler (src/match.py `ensure_status_column`, lines 82-93) -/

/-- Embeds `ensure_status_column`: if the target header is present, return the
table unchanged with its existing zero-based index and issue no remote call;
otherwise append one column remotely, write the header cell at the new 1-based
index, extend the in-memory table with an empty column, and return the new
zero-based index. The result is ((table, index), issued remote ops). -/
def ensure_status_column (cols : List String) (rows : List (List String)) :
    ((List String × List (List String)) × Nat) × List GridOp :=
  match pyIndex cols Q2_STATUS_HEADER with
  | some i => (((cols, rows), i), [])
  | none =>
    (((cols ++ [Q2_STATUS_HEADER], rows.map (fun r => r ++ [""])), cols.length),
      [GridOp.addCols 1, GridOp.updateCell 1 (cols.length + 1) Q2_STATUS_HEADER])

theorem pyIndex_append_self :
    ∀ (l : List String) (a : String), pyIndex l a = none →
      pyIndex (l ++ [a]) a = some l.length := by
  intro l a
  induction l with
  | nil => intro h; simp [pyIndex]
  | cons x xs ih =>
    intro h
    rw [pyIndex] at h
    by_cases hx : x = a
    · rw [if_pos hx] at h
      cases h
    · rw [if_neg hx] at h
      have hxs : pyIndex xs a = none := by
        match hp : pyIndex xs a with
        | none => rfl
        | some i => rw [hp] at h; cases h
      show pyIndex ((x :: xs) ++ [a]) a = some (xs.length + 1)
      rw [List.cons_append, pyIndex, if_neg hx, ih hxs]
      rfl

/-- C4: when the target column name is already in the header the reconciler
returns that column's existing zero-based index and issues no remote call;
when it is absent, two successive calls issue exactly one column-append and
one header-cell write in total, and the second call is a no-op returning the
same index as the first. -/
theorem C4_schema_reconciler (cols : List String) (rows : List (List String)) :
    (∀ i, pyIndex cols Q2_STATUS_HEADER = some i →
      ensure_status_column cols rows = (((cols, rows), i), []) ∧
      cols.getD i "" = Q2_STATUS_HEADER) ∧
    (pyIndex cols Q2_STATUS_HEADER = none →
      (ensure_status_column cols rows).2 =
        [GridOp.addCols 1, GridOp.updateCell 1 (cols.length + 1) Q2_STATUS_HEADER] ∧
      (ensure_status_column (ensure_status_column cols rows).1.1.1
          (ensure_status_column cols rows).1.1.2).2 = [] ∧
      (ensure_status_column (ensure_status_column cols rows).1.1.1
          (ensure_status_column cols rows).1.1.2).1.2 =
        (ensure_status_column cols rows).1.2) := by
  constructor
  · intro i hi
    constructor
    · unfold ensure_status_column
      rw [hi]
    · exact (pyIndex_getD cols Q2_STATUS_HEADER i hi).2
  · intro hn
    have h1 : ensure_status_column cols rows =
        (((cols ++ [Q2_STATUS_HEADER], rows.map (fun r => r ++ [""])), cols.length),
          [GridOp.addCols 1, GridOp.updateCell 1 (cols.length + 1) Q2_STATUS_HEADER]) := by
      unfold ensure_status_column
      rw [hn]
    have h2 : ensure_status_column (cols ++ [Q2_STATUS_HEADER])
        (rows.map (fun r => r ++ [""])) =
        (((cols ++ [Q2_STATUS_HEADER], rows.map (fun r => r ++ [""])), cols.length), []) := by
      unfold ensure_status_column
      rw [pyIndex_append_self cols Q2_STATUS_HEADER hn]
    rw [h1]
    exact ⟨rfl, by rw [h2], by rw [h2]⟩

/-- Witness for C4: a header already containing the target column is a no-op,
and a header missing it gets exactly the two remote mutations. -/
theorem C4_witness :
    (pyIndex ["Validity status"] Q2_STATUS_HEADER = some 0 ∧
      ensure_status_column ["Validity status"] [] = (((["Validity status"], []), 0), [])) ∧
    (pyIndex ["Link"] Q2_STATUS_HEADER = none ∧
      (ensure_status_column ["Link"] []).2 =
        [GridOp.addCols 1, GridOp.updateCell 1 2 Q2_STATUS_HEADER]) :=
  ⟨⟨rfl, ((C4_schema_reconciler ["Validity status"] []).1 0 rfl).1⟩,
    ⟨rfl, ((C4_schema_reconciler ["Link"] []).2 rfl).1⟩⟩

/-! ## Main flow of src/match.py (lines 107-150) -/

/-- Embeds the chunked range-write push of src/match.py lines 136-148: one
`ws.update(chunk_vals, rng)` per chunk, with the range string built from the
status column's letter label and the chunk's first and last data rows. -/
def pushChunks (statusColOne : Nat) (values : List (List String)) : List GridOp :=
  (chunkCalls MATCH_CHUNK values 0).map (fun t =>
    GridOp.updateRange
      (col_letter statusColOne ++ toString t.1 ++ ":" ++
        col_letter statusColOne ++ toString t.2.1)
      t.2.2)

/-- Embeds `main` of src/match.py after the remote reads: build the Q4 mapping
(fatal if the key column is missing), split the Q2 grid into header and data
(`ws_to_df`), ensure the status column, merge, then push the status column in
chunks. Returns the issued Grid Store mutations in order, and the match count
or the fatal error. -/
def matchMain (q4rows q2rows : List (List String)) : List GridOp × Except String Nat :=
  match build_q4_mapping q4rows with
  | Except.error e => ([], Except.error e)
  | Except.ok mapping =>
    match q2rows with
    | [] => ([], Except.error "IndexError: list index out of range")
    | q2header :: q2data =>
      let er := ensure_status_column q2header q2data
      let mr := mergeTable mapping er.1.1.1 er.1.1.2
      let statusValues := mr.1.map (fun r => [dfGet er.1.1.1 r Q2_STATUS_HEADER])
      (er.2 ++ pushChunks (er.1.2 + 1) statusValues, Except.ok mr.2)

theorem pyIndex_eq_none (l : List String) (a : String) : pyIndex l a = none ↔ a ∉ l := by
  induction l with
  | nil => simp [pyIndex]
  | cons x xs ih =>
    rw [pyIndex]
    by_cases hx : x = a
    · simp [hx]
    · rw [if_neg hx]
      constructor
      · intro h hmem
        rcases List.mem_cons.mp hmem with h1 | h1
        · exact hx h1.symm
        · have hxs : pyIndex xs a = none := by
            match hp : pyIndex xs a with
            | none => rfl
            | some i => rw [hp] at h; cases h
          exact (ih.mp hxs) h1
      · intro h
        have : a ∉ xs := fun hmem => h (List.mem_cons_of_mem x hmem)
        rw [ih.mpr this]
        rfl

/-- C8: when the declared key-column name is absent from the source table's
header, the run terminates with the fatal missing-column error and no Grid
Store mutation of any kind is issued. -/
theorem C8_missing_key_aborts (q4header : List String) (q4rest q2rows : List (List String))
    (habs : Q4_LINK_HEADER ∉ q4header) :
    (matchMain (q4header :: q4rest) q2rows).1 = [] ∧
    (matchMain (q4header :: q4rest) q2rows).2 =
      Except.error "[ERROR] Column Github Links not found in Q4 sheet." := by
  have hn : pyIndex q4header Q4_LINK_HEADER = none := (pyIndex_eq_none _ _).mpr habs
  have hb : build_q4_mapping (q4header :: q4rest) =
      Except.error "[ERROR] Column Github Links not found in Q4 sheet." := by
    show (match pyIndex q4header Q4_LINK_HEADER with
      | none => Except.error "[ERROR] Column Github Links not found in Q4 sheet."
      | some linkIdx => Except.ok (q4loop linkIdx q4rest)) = _
    rw [hn]
  unfold matchMain
  rw [hb]
  exact ⟨rfl, rfl⟩

/-- Witness for C8: a concrete source grid whose header lacks "Github Links". -/
theorem C8_witness :
    Q4_LINK_HEADER ∉ (["foo", "bar"] : List String) ∧
    (matchMain [["foo", "bar"], ["x", "y"]] [["Link"], ["a"]]).1 = [] :=
  ⟨by decide,
    (C8_missing_key_aborts ["foo", "bar"] [["x", "y"]] [["Link"], ["a"]] (by decide)).1⟩

/-! ## Record Flattener (src/upload.py `parse_line`, lines 34-62)

JSON values are embedded as `JValue`; the external parser `json.loads` is a
parameter `jparse` (returning `none` on a JSONDecodeError). Python's
`dict.get(key, default)` is `pyGet`: on a dict it looks the key up, on any
other value it raises AttributeError, embedded as the error case of `Except`.
-/

inductive JValue where
  | null
  | jbool (b : Bool)
  | jnum (n : Int)
  | jstr (s : String)
  | jarr (elems : List JValue)
  | jobj (fields : List (String × JValue))

/-- Embeds `value.get(key, default)`: field lookup on a dict (JSON objects from
`json.loads` have unique keys, so first-match lookup is exact); AttributeError
on any non-dict value. -/
def pyGet : JValue → String → JValue → Except Unit JValue
  | JValue.jobj fields, k, d => Except.ok ((fields.lookup k).getD d)
  | _, _, _ => Except.error ()

/-- Embeds `value.get(key)` (default `None`). -/
def pyGetN (v : JValue) (k : String) : Except Unit JValue := pyGet v k JValue.null

/-- Embeds Python truthiness of a JSON value, as used by `or` in
`obj.get("Raw") or obj.get("RawV2")`. -/
def pyFalsy : JValue → Bool
  | JValue.null => true
  | JValue.jbool b => !b
  | JValue.jnum n => n == 0
  | JValue.jstr s => s == ""
  | JValue.jarr es => es.isEmpty
  | JValue.jobj fs => fs.isEmpty

/-- The flat record built by `parse_line` (src/upload.py lines 50-62). -/
structure Finding where
  link : JValue
  repository : JValue
  commit : JValue
  file : JValue
  line : JValue
  timestamp : JValue
  email : JValue
  detector_name : JValue
  detector_type : JValue
  raw_secret : JValue
  verified : JValue

/-- Embeds the body of `parse_line` after a successful `json.loads`: the nested
`gh` lookup (lines 44-48) followed by the dict literal (lines 50-62). -/
def flattenObj (obj : JValue) : Except Unit Finding := do
  let sm ← pyGet obj "SourceMetadata" (JValue.jobj [])
  let dat ← pyGet sm "Data" (JValue.jobj [])
  let gh ← pyGet dat "Github" (JValue.jobj [])
  let link ← pyGetN gh "link"
  let repository ← pyGetN gh "repository"
  let commit ← pyGetN gh "commit"
  let file ← pyGetN gh "file"
  let line ← pyGetN gh "line"
  let timestamp ← pyGetN gh "timestamp"
  let email ← pyGetN gh "email"
  let detector_name ← pyGetN obj "DetectorName"
  let detector_type ← pyGetN obj "DetectorType"
  let rawv ← pyGetN obj "Raw"
  let raw_secret ← if pyFalsy rawv then pyGetN obj "RawV2" else Except.ok rawv
  let verified ← pyGetN obj "Verified"
  Except.ok ⟨link, repository, commit, file, line, timestamp, email,
    detector_name, detector_type, raw_secret, verified⟩

/-- Embeds `parse_line`: strip, drop blank lines, drop JSON parse failures,
flatten the parsed document. -/
def parse_line (jparse : String → Option JValue) (raw : String) :
    Except Unit (Option Finding) :=
  if pytrim raw = "" then Except.ok none
  else
    match jparse (pytrim raw) with
    | none => Except.ok none
    | some obj => (flattenObj obj).map some

/-- Modelled from the spec: the external JSON parser on the line consisting of
the two bracket characters returns the empty JSON array (as `json.loads` does);
no other input parses. -/
def jparseArr : String → Option JValue :=
  fun s => if s = "[]" then some (JValue.jarr []) else none

/-- C7 counterexample: on the raw line that parses to a JSON array (not a
dict), the flattener raises (AttributeError on `.get`) instead of producing
nothing or a record — so it is not total on all raw lines. -/
theorem C7_counterexample : parse_line jparseArr "[]" = Except.error () := rfl

/-- Is this JSON value a dict? -/
def isObj : JValue → Bool
  | JValue.jobj _ => true
  | _ => false

/-- Spec-side pure version of what `value.get(key, default)` returns on a dict. -/
def jfield (v : JValue) (k : String) (d : JValue) : JValue :=
  match v with
  | JValue.jobj fields => (fields.lookup k).getD d
  | _ => d

/-- The parsed document and every present traversed segment of the
SourceMetadata → Data → Github path are dicts. -/
def ghSafe (obj : JValue) : Bool :=
  isObj obj &&
  isObj (jfield obj "SourceMetadata" (JValue.jobj [])) &&
  isObj (jfield (jfield obj "SourceMetadata" (JValue.jobj [])) "Data" (JValue.jobj [])) &&
  isObj (jfield (jfield (jfield obj "SourceMetadata" (JValue.jobj []))
    "Data" (JValue.jobj [])) "Github" (JValue.jobj []))

theorem isObj_exists (v : JValue) (h : isObj v = true) :
    ∃ fs, v = JValue.jobj fs := by
  cases v <;> simp [isObj] at h ⊢

theorem except_bind_ok {α β : Type} (a : α) (f : α → Except Unit β) :
    (Except.ok a : Except Unit α) >>= f = f a := rfl

theorem flattenObj_ok (obj : JValue) (hsafe : ghSafe obj = true) :
    ∃ f, flattenObj obj = Except.ok f := by
  unfold ghSafe at hsafe
  simp only [Bool.and_eq_true] at hsafe
  obtain ⟨⟨⟨h0, h1⟩, h2⟩, h3⟩ := hsafe
  obtain ⟨fs, rfl⟩ := isObj_exists _ h0
  obtain ⟨smFs, hsm⟩ := isObj_exists _ h1
  obtain ⟨datFs, hdat⟩ := isObj_exists _ h2
  obtain ⟨ghFs, hgh⟩ := isObj_exists _ h3
  unfold flattenObj
  have e1 : pyGet (JValue.jobj fs) "SourceMetadata" (JValue.jobj []) =
      Except.ok (JValue.jobj smFs) := by
    rw [show pyGet (JValue.jobj fs) "SourceMetadata" (JValue.jobj []) =
      Except.ok (jfield (JValue.jobj fs) "SourceMetadata" (JValue.jobj [])) from rfl, hsm]
  rw [e1, except_bind_ok]
  have e2 : pyGet (JValue.jobj smFs) "Data" (JValue.jobj []) =
      Except.ok (JValue.jobj datFs) := by
    rw [show pyGet (JValue.jobj smFs) "Data" (JValue.jobj []) =
      Except.ok (jfield (JValue.jobj smFs) "Data" (JValue.jobj [])) from rfl]
    rw [← hsm, hdat]
  rw [e2, except_bind_ok]
  have e3 : pyGet (JValue.jobj datFs) "Github" (JValue.jobj []) =
      Except.ok (JValue.jobj ghFs) := by
    rw [show pyGet (JValue.jobj datFs) "Github" (JValue.jobj []) =
      Except.ok (jfield (JValue.jobj datFs) "Github" (JValue.jobj [])) from rfl]
    rw [← hdat, hgh]
  rw [e3, except_bind_ok]
  simp only [pyGetN, pyGet, except_bind_ok]
  cases hb : pyFalsy ((fs.lookup "Raw").getD JValue.null) <;>
    · simp only [hb, Bool.false_eq_true, if_true, if_false, except_bind_ok]
      exact ⟨_, rfl⟩

theorem flattenObj_default (fields : List (String × JValue))
    (habs : fields.lookup "SourceMetadata" = none) :
    ∃ f, flattenObj (JValue.jobj fields) = Except.ok f ∧
      f.link = JValue.null ∧ f.email = JValue.null := by
  cases hb : pyFalsy ((fields.lookup "Raw").getD JValue.null)
  · exact ⟨⟨JValue.null, JValue.null, JValue.null, JValue.null, JValue.null, JValue.null,
      JValue.null, (fields.lookup "DetectorName").getD JValue.null,
      (fields.lookup "DetectorType").getD JValue.null,
      (fields.lookup "Raw").getD JValue.null,
      (fields.lookup "Verified").getD JValue.null⟩,
      by simp [flattenObj, pyGet, pyGetN, except_bind_ok, habs, hb], rfl, rfl⟩
  · exact ⟨⟨JValue.null, JValue.null, JValue.null, JValue.null, JValue.null, JValue.null,
      JValue.null, (fields.lookup "DetectorName").getD JValue.null,
      (fields.lookup "DetectorType").getD JValue.null,
      (fields.lookup "RawV2").getD JValue.null,
      (fields.lookup "Verified").getD JValue.null⟩,
      by simp [flattenObj, pyGet, pyGetN, except_bind_ok, habs, hb], rfl, rfl⟩

/-- C7 (amended): a line blank after stripping, or failing to parse, produces
nothing without raising; when the parsed document is a dict whose traversed
SourceMetadata, Data and Github segments — where present — are dicts, the
flattener produces a record without raising, and absent path segments default
(to None-valued fields) instead of raising; but a document or traversed segment
that is present and not a dict makes the flattener raise (AttributeError), so
totality holds only on the dict-shaped documents. -/
theorem C7_flattener_total_on_dicts (jparse : String → Option JValue) (raw : String) :
    (pytrim raw = "" → parse_line jparse raw = Except.ok none) ∧
    (jparse (pytrim raw) = none → parse_line jparse raw = Except.ok none) ∧
    (∀ v, jparse (pytrim raw) = some v → pytrim raw ≠ "" → ghSafe v = true →
      ∃ f, parse_line jparse raw = Except.ok (some f)) ∧
    (∀ fields, jparse (pytrim raw) = some (JValue.jobj fields) → pytrim raw ≠ "" →
      fields.lookup "SourceMetadata" = none →
      ∃ f, parse_line jparse raw = Except.ok (some f) ∧
        f.link = JValue.null ∧ f.email = JValue.null) := by
  refine ⟨?_, ?_, ?_, ?_⟩
  · intro h
    unfold parse_line
    rw [if_pos h]
  · intro h
    unfold parse_line
    by_cases ht : pytrim raw = ""
    · rw [if_pos ht]
    · rw [if_neg ht, h]
  · intro v hv ht hsafe
    unfold parse_line
    rw [if_neg ht, hv]
    obtain ⟨f, hf⟩ := flattenObj_ok v hsafe
    show ∃ f, Except.map some (flattenObj v) = Except.ok (some f)
    rw [hf]
    exact ⟨f, rfl⟩
  · intro fields hv ht habs
    unfold parse_line
    rw [if_neg ht, hv]
    obtain ⟨f, hf, hl, he⟩ := flattenObj_default fields habs
    refine ⟨f, ?_, hl, he⟩
    show Except.map some (flattenObj (JValue.jobj fields)) = Except.ok (some f)
    rw [hf]
    rfl

/-- Witness for C7's amended statement: a whitespace-only line produces
nothing, and an empty dict document flattens to a record without raising. -/
theorem C7_witness :
    (pytrim " " = "" ∧ parse_line jparseArr " " = Except.ok none) ∧
    (ghSafe (JValue.jobj []) = true ∧
      ∃ f, parse_line (fun _ => some (JValue.jobj [])) "x" = Except.ok (some f)) :=
  ⟨⟨rfl, (C7_flattener_total_on_dicts jparseArr " ").1 rfl⟩,
    ⟨rfl, (C7_flattener_total_on_dicts (fun _ => some (JValue.jobj [])) "x").2.2.1
      (JValue.jobj []) rfl (by decide) rfl⟩⟩

/-! ## Ingestion loading (src/upload.py `load_findings`, lines 65-76, and
`main`, lines 126-139) -/

/-- Embeds the record-collecting loop of `load_findings`: parse each line,
keep the records (`if rec:` is always true for the 11-key dict), propagate a
raised AttributeError. -/
def collectRecords (jparse : String → Option JValue) : List String → Except Unit (List Finding)
  | [] => Except.ok []
  | l :: ls =>
    match parse_line jparse l with
    | Except.error e => Except.error e
    | Except.ok none => collectRecords jparse ls
    | Except.ok (some f) =>
      match collectRecords jparse ls with
      | Except.error e => Except.error e
      | Except.ok fs => Except.ok (f :: fs)

/-- Embeds `load_findings`: collect all records, then `sys.exit` with the
no-findings diagnostic when none was produced. -/
def load_findings (jparse : String → Option JValue) (lines : List String) :
    Except String (List Finding) :=
  match collectRecords jparse lines with
  | Except.error _ => Except.error "AttributeError"
  | Except.ok [] => Except.error "[INFO] No findings found - exiting."
  | Except.ok records => Except.ok records

/-- Embeds `main` of src/upload.py after the credential check: load the
findings — terminating before any remote connection when there are none —
then connect and upload. `render` stands for the external pandas/gspread
serialization of one record into one row of cells. -/
def uploadMain (jparse : String → Option JValue) (render : Finding → List String)
    (lines : List String) : List GridOp × Except String Nat :=
  match load_findings jparse lines with
  | Except.error e => ([], Except.error e)
  | Except.ok records =>
    (upload_dataframe FIELDS (records.map render), Except.ok records.length)

theorem collectRecords_all_skipped (jparse : String → Option JValue) :
    ∀ (lines : List String),
      (∀ l ∈ lines, parse_line jparse l = Except.ok none) →
      collectRecords jparse lines = Except.ok [] := by
  intro lines
  induction lines with
  | nil => intro _; rfl
  | cons l ls ih =>
    intro h
    show (match parse_line jparse l with
      | Except.error e => Except.error e
      | Except.ok none => collectRecords jparse ls
      | Except.ok (some f) =>
        match collectRecords jparse ls with
        | Except.error e => Except.error e
        | Except.ok fs => Except.ok (f :: fs)) = Except.ok []
    rw [h l (List.mem_cons_self l ls)]
    exact ih (fun x hx => h x (List.mem_cons_of_mem l hx))

/-- C10: when every input line is blank or unparsable, the ingestion run
terminates with the no-findings diagnostic and performs no Grid Store
operation of any kind. -/
theorem C10_empty_input_aborts (jparse : String → Option JValue)
    (render : Finding → List String) (lines : List String)
    (hall : ∀ l ∈ lines, pytrim l = "" ∨ jparse (pytrim l) = none) :
    (uploadMain jparse render lines).1 = [] ∧
    (uploadMain jparse render lines).2 =
      Except.error "[INFO] No findings found - exiting." := by
  have hskip : ∀ l ∈ lines, parse_line jparse l = Except.ok none := by
    intro l hl
    rcases hall l hl with h | h
    · unfold parse_line
      rw [if_pos h]
    · unfold parse_line
      by_cases ht : pytrim l = ""
      · rw [if_pos ht]
      · rw [if_neg ht, h]
  have hcoll := collectRecords_all_skipped jparse lines hskip
  have hload : load_findings jparse lines =
      Except.error "[INFO] No findings found - exiting." := by
    unfold load_findings
    rw [hcoll]
  constructor <;> · unfold uploadMain; rw [hload]

/-- Witness for C10: two lines, one blank and one that fails to parse. -/
theorem C10_witness :
    (∀ l ∈ (["", "notjson"] : List String),
      pytrim l = "" ∨ (none : Option JValue) = none) ∧
    (uploadMain (fun _ => none) (fun _ => []) ["", "notjson"]).1 = [] :=
  ⟨fun l _ => Or.inr rfl,
    (C10_empty_input_aborts (fun _ => none) (fun _ => []) ["", "notjson"]
      (fun l _ => Or.inr rfl)).1⟩

/-- Every character of a letter label lies in the ASCII range of A to Z. -/
theorem col_letter_chars : ∀ n : Nat, ∀ c ∈ (col_letter n).data, 65 ≤ c.toNat ∧ c.toNat ≤ 90 := by
  intro n
  induction n using Nat.strongRecOn with
  | ind n ih =>
    match n with
    | 0 => intro c hc; simp [col_letter, colAux] at hc
    | m + 1 =>
      rw [col_letter_succ]
      intro c hc
      rw [data_append] at hc
      rcases List.mem_append.mp hc with h | h
      · exact ih (m / 26) (Nat.lt_succ_of_le (Nat.div_le_self m 26)) c h
      · have : c = Char.ofNat (65 + m % 26) := by simpa using h
        subst this
        exact char_code_bounds ⟨m % 26, Nat.mod_lt m (by norm_num)⟩

/-- The label of a positive index is nonempty. -/
theorem col_letter_ne_empty (n : Nat) (hn : 0 < n) : col_letter n ≠ "" := by
  match n, hn with
  | m + 1, _ =>
    rw [col_letter_succ]
    intro h
    have := congrArg String.data h
    rw [data_append] at this
    simp at this

/-- C5: the letter-label conversion sends 1, 26, 27, 52, 702 to "A", "Z", "AA",
"AZ", "ZZ" respectively, and distinct positive indices get distinct labels. -/
theorem C5_col_letter_values_and_injective :
    col_letter 1 = "A" ∧ col_letter 26 = "Z" ∧ col_letter 27 = "AA" ∧
    col_letter 52 = "AZ" ∧ col_letter 702 = "ZZ" ∧
    ∀ a b : Nat, 0 < a → 0 < b → col_letter a = col_letter b → a = b := by
  refine ⟨rfl, rfl, rfl, rfl, rfl, ?_⟩
  intro a b _ _ h
  have := congrArg decodeCols h
  rwa [decode_col_letter, decode_col_letter] at this

/-- Witness for C5: the injectivity conjunct applied at the concrete pair 26, 26. -/
theorem C5_witness : 0 < 26 ∧ 0 < 26 ∧ (col_letter 26 = col_letter 26 → 26 = 26) :=
  ⟨by decide, by decide,
    fun h => C5_col_letter_values_and_injective.2.2.2.2.2 26 26 (by decide) (by decide) h⟩

/-- C6 counterexample: at index 0 (an index below 1) the conversion does not fail
with any error — it returns the empty string. The source has no guard at all:
`while idx_1based` simply never runs for index 0. -/
theorem C6_counterexample : col_letter 0 = "" := rfl

/-- C6 (amended): the conversion terminates with a valid label (nonempty, all
characters in A..Z) for every index ≥ 1; at index 0 it returns the empty string
instead of failing with an InvalidIndex error. -/
theorem C6_total_on_positive :
    col_letter 0 = "" ∧
    ∀ n : Nat, 0 < n →
      col_letter n ≠ "" ∧ ∀ c ∈ (col_letter n).data, 65 ≤ c.toNat ∧ c.toNat ≤ 90 :=
  ⟨rfl, fun n hn => ⟨col_letter_ne_empty n hn, col_letter_chars n⟩⟩

/-- Witness for C6: the amended statement applied at index 3. -/
theorem C6_witness :
    0 < 3 ∧ (col_letter 3 ≠ "" ∧ ∀ c ∈ (col_letter 3).data, 65 ≤ c.toNat ∧ c.toNat ≤ 90) :=
  ⟨by decide, C6_total_on_positive.2 3 (by decide)⟩

end Trufflehog
